import Mathlib

/-!
# Runtime v2 module wiring

A shallow embedding of `runtime/v2/module.go`: the store-key allocator
(`registerStoreKey`, `storeKeyOverride`, `ProvideKVStoreKey`,
`ProvideMemoryStoreKey`), the environment builder (`ProvideEnvironment`) and the
address-codec resolver (`ProvideAddressCodec`).

Conventions of the embedding:

* Go strings are Lean `String`s; `fmt.Sprintf("memory:%s", s)` is `"memory:" ++ s`
  and `fmt.Sprintf("%svaloper", s)` is `s ++ "valoper"`; `[]byte(s)` is `s.toUTF8`.
* A Go pointer that may be nil is an `Option`; an object that a function mutates
  through a pointer is passed in and handed back (explicit state passing).
* A Go `panic` is `Except.error` carrying the panic message.
* Values of interface types that the file only passes around (loggers, registries,
  routers) are opaque handles.
-/

namespace Runtime

/-! ## Store keys -/

/-- Modelled from the spec: `storetypes.KVStoreKey` is declared outside
`runtime/v2/module.go`; a persistent store key is identified by its name. -/
structure KVStoreKey where
  name : String
deriving DecidableEq, Repr

/-- Modelled from the spec: `storetypes.MemoryStoreKey` is declared outside
`runtime/v2/module.go`; a memory store key is identified by its name. -/
structure MemoryStoreKey where
  name : String
deriving DecidableEq, Repr

/-- The message of the panic in `storetypes.NewKVStoreKey`. -/
def emptyKeyNamePanic : String := "empty key name not allowed"

/-- Modelled from the spec: constructor `storetypes.NewKVStoreKey`, declared outside
`runtime/v2/module.go`; it yields the persistent key with the given name. The
constructor guards against the empty name: `if name == ""` it panics with
`empty key name not allowed`. -/
def NewKVStoreKey (name : String) : Except String KVStoreKey :=
  if name = "" then .error emptyKeyNamePanic else .ok { name := name }

/-- Modelled from the spec: constructor `storetypes.NewMemoryStoreKey`, declared
outside `runtime/v2/module.go`; it yields the memory key with the given name and has
no guard on the name. -/
def NewMemoryStoreKey (name : String) : MemoryStoreKey := { name := name }

/-- The method `(*KVStoreKey).Name`. -/
def KVStoreKey.Name (k : KVStoreKey) : String := k.name

/-- The method `(*MemoryStoreKey).Name`. -/
def MemoryStoreKey.Name (k : MemoryStoreKey) : String := k.name

/-- The interface `storetypes.StoreKey`, with the two implementations that
`module.go` stores in the key list of the App. -/
inductive StoreKey where
  | kv (k : KVStoreKey)
  | memory (k : MemoryStoreKey)
deriving DecidableEq, Repr

/-- The interface method `StoreKey.Name`. -/
def StoreKey.Name : StoreKey → String
  | .kv k => k.Name
  | .memory k => k.Name

/-! ## Configuration -/

/-- The message `runtimev2.StoreKeyConfig`: one store-key override entry. -/
structure StoreKeyConfig where
  ModuleName : String
  KvStoreKey : String
deriving DecidableEq, Repr

/-- The message `runtimev2.Module`, restricted to the field `module.go` reads. -/
structure Module where
  OverrideStoreKeys : List StoreKeyConfig
deriving DecidableEq, Repr

/-- The type `depinject.ModuleKey`: the identity of the module a provider is
instantiated for. -/
structure ModuleKey where
  name : String
deriving DecidableEq, Repr

/-- The method `ModuleKey.Name`. -/
def ModuleKey.Name (key : ModuleKey) : String := key.name

/-! ## App and AppBuilder -/

/-- An opaque reference to a collaborator object (registry, codec, router, ...). -/
abbrev Handle := Nat

/-- Modelled from the spec: the struct `App` is declared outside
`runtime/v2/module.go`. Its fields are the ones `ProvideAppBuilder` and
`SetupAppBuilder` assign: the ordered store-key list and references to the
collaborators. -/
structure App where
  storeKeys : List StoreKey
  interfaceRegistry : Option Handle
  cdc : Option Handle
  amino : Option Handle
  msgRouterBuilder : Option Handle
  queryRouterBuilder : Option Handle
  config : Option Module
  appConfig : Option Handle
  logger : Option Handle
  moduleManager : Option Handle
  db : Option Handle
deriving DecidableEq, Repr

/-- Modelled from the spec: the struct `AppBuilder` is declared outside
`runtime/v2/module.go`; it wraps exactly one App. -/
structure AppBuilder where
  app : App
deriving DecidableEq, Repr

/-- The App that `ProvideAppBuilder` creates: no store keys, the four collaborators
built there, and every other field still unset. -/
def freshAppBuilder (interfaceRegistry cdc amino msgRouterBuilder : Handle) : AppBuilder :=
  { app :=
    { storeKeys := []
      interfaceRegistry := some interfaceRegistry
      cdc := some cdc
      amino := some amino
      msgRouterBuilder := some msgRouterBuilder
      queryRouterBuilder := none
      config := none
      appConfig := none
      logger := none
      moduleManager := none
      db := none } }

/-- `registerStoreKey`: `wrapper.app.storeKeys = append(wrapper.app.storeKeys, key)`.
The builder is a pointer in Go; the updated builder is returned. -/
def registerStoreKey (wrapper : AppBuilder) (key : StoreKey) : AppBuilder :=
  { wrapper with app := { wrapper.app with storeKeys := wrapper.app.storeKeys ++ [key] } }

/-- The loop of `storeKeyOverride` over `config.OverrideStoreKeys`: the first entry
whose `ModuleName` equals `moduleName`, or nil. -/
def storeKeyOverrideLoop : List StoreKeyConfig → String → Option StoreKeyConfig
  | [], _ => none
  | cfg :: rest, moduleName =>
    if cfg.ModuleName = moduleName then some cfg else storeKeyOverrideLoop rest moduleName

/-- `storeKeyOverride(config, moduleName)`. -/
def storeKeyOverride (config : Module) (moduleName : String) : Option StoreKeyConfig :=
  storeKeyOverrideLoop config.OverrideStoreKeys moduleName

/-- The local variable `storeKeyName` of `ProvideKVStoreKey`: the `KvStoreKey` of the
override for the module when `storeKeyOverride` finds one, else the module name. -/
def storeKeyName (config : Module) (moduleName : String) : String :=
  match storeKeyOverride config moduleName with
  | some o => o.KvStoreKey
  | none => moduleName

/-- `ProvideKVStoreKey(config, key, app)`: returns the new persistent key and the
builder after the key was registered. When the constructor panics nothing has been
registered yet, so the builder of the caller is as it was. -/
def ProvideKVStoreKey (config : Module) (key : ModuleKey) (app : AppBuilder) :
    Except String (KVStoreKey × AppBuilder) :=
  match NewKVStoreKey (storeKeyName config key.Name) with
  | .error e => .error e
  | .ok storeKey => .ok (storeKey, registerStoreKey app (.kv storeKey))

/-- `ProvideMemoryStoreKey(key, app)`: returns the new memory key and the builder
after the key was registered. -/
def ProvideMemoryStoreKey (key : ModuleKey) (app : AppBuilder) :
    MemoryStoreKey × AppBuilder :=
  let storeKey := NewMemoryStoreKey ("memory:" ++ key.Name)
  (storeKey, registerStoreKey app (.memory storeKey))

/-! ## Environment -/

/-- An opaque `log.Logger` value. -/
structure Logger where
  id : Nat
deriving DecidableEq, Repr

/-- Modelled from the spec: the service that `stf.NewKVStoreService` builds, declared
outside `runtime/v2/module.go`; a persistent-store service is scoped to the bytes
it is given. -/
structure KVStoreService where
  actor : ByteArray

/-- Modelled from the spec: the service that `stf.NewMemoryStoreService` builds,
declared outside `runtime/v2/module.go`; a memory-store service is scoped to the
bytes it is given. -/
structure MemoryStoreService where
  actor : ByteArray

/-- Modelled from the spec: constructor `stf.NewKVStoreService`. -/
def NewKVStoreService (actor : ByteArray) : KVStoreService := { actor := actor }

/-- Modelled from the spec: constructor `stf.NewMemoryStoreService`. -/
def NewMemoryStoreService (actor : ByteArray) : MemoryStoreService := { actor := actor }

/-- The stateless event-emission service. -/
structure EventService where
deriving DecidableEq, Repr

/-- The stateless gas-accounting service. -/
structure GasService where
deriving DecidableEq, Repr

/-- Modelled from the spec: constructor `stf.NewEventService`. -/
def NewEventService : EventService := {}

/-- Modelled from the spec: constructor `stf.NewGasMeterService`. -/
def NewGasMeterService : GasService := {}

/-- The struct `appmodulev2.Environment`, with the fields `ProvideEnvironment`
assigns. The service fields are interface values and may be nil. -/
structure Environment where
  Logger : Logger
  BranchService : Option Handle
  EventService : Option EventService
  GasService : Option GasService
  HeaderService : Option Handle
  KVStoreService : Option KVStoreService
  MemStoreService : Option MemoryStoreService

/-- `ProvideEnvironment(logger, config, key, app)`: returns the environment, the two
store services, and the builder after the calls it makes on it. A panic of the first
call, `ProvideKVStoreKey`, ends the function before anything was registered. -/
def ProvideEnvironment (logger : Logger) (config : Module) (key : ModuleKey) (app : AppBuilder) :
    Except String ((Environment × KVStoreService × MemoryStoreService) × AppBuilder) :=
  match ProvideKVStoreKey config key app with
  | .error e => .error e
  | .ok (kvStoreKey, app) =>
    let kvService := NewKVStoreService kvStoreKey.Name.toUTF8
    let (memStoreKey, app) := ProvideMemoryStoreKey key app
    let memService := NewMemoryStoreService memStoreKey.Name.toUTF8
    let env : Environment :=
      { Logger := logger
        BranchService := none
        EventService := some NewEventService
        GasService := some NewGasMeterService
        HeaderService := none
        KVStoreService := some kvService
        MemStoreService := some memService }
    .ok ((env, kvService, memService), app)

/-! ## Address codecs -/

/-- Modelled from the spec: an address codec (`address.Codec` and its validator and
consensus variants), declared outside `runtime/v2/module.go`. A codec is either the
bech32 codec scoped to a prefix or one supplied by an external factory. -/
inductive Codec where
  | bech32 (hrp : String)
  | external (id : Nat)
deriving DecidableEq, Repr

/-- Modelled from the spec: constructor `addresscodec.NewBech32Codec`. -/
def NewBech32Codec (hrp : String) : Codec := .bech32 hrp

/-- The message `authmodulev1.Module`, restricted to the field `module.go` reads. -/
structure AuthModule where
  Bech32Prefix : String
deriving DecidableEq, Repr

/-- The message `stakingmodulev1.Module`, restricted to the fields `module.go` reads
and writes. The zero value `&stakingmodulev1.Module{}` has both fields empty. -/
structure StakingModule where
  Bech32PrefixValidator : String := ""
  Bech32PrefixConsensus : String := ""
deriving DecidableEq, Repr

/-- The struct `AddressCodecInputs`: two optional configs (pointers, nil when absent)
and three optional factories (nil when absent). -/
structure AddressCodecInputs where
  AuthConfig : Option AuthModule
  StakingConfig : Option StakingModule
  AddressCodecFactory : Option (Unit → Codec)
  ValidatorAddressCodecFactory : Option (Unit → Codec)
  ConsensusAddressCodecFactory : Option (Unit → Codec)

/-- What a returning call of `ProvideAddressCodec` leaves behind: the three returned
codecs, and the objects behind the two config pointers the caller passed, as they
are after the call (`none` when the caller passed nil). -/
structure AddressCodecOutputs where
  addressCodec : Codec
  validatorAddressCodec : Codec
  consensusAddressCodec : Codec
  AuthConfig : Option AuthModule
  StakingConfig : Option StakingModule
deriving DecidableEq, Repr

/-- The message of the panic in `ProvideAddressCodec`. -/
def emptyBech32Panic : String :=
  "auth config bech32 prefix cannot be empty if no custom address codec is provided"

/-- `ProvideAddressCodec(in)`. The argument struct is passed by value, so replacing a
nil `in.StakingConfig` by a fresh object is local to the call, whereas the two field
assignments go through the pointer and reach the object of the caller when the
caller passed one. -/
def ProvideAddressCodec (inp : AddressCodecInputs) : Except String AddressCodecOutputs :=
  match inp.AddressCodecFactory, inp.ValidatorAddressCodecFactory,
      inp.ConsensusAddressCodecFactory with
  | some f, some g, some h =>
    .ok { addressCodec := f ()
          validatorAddressCodec := g ()
          consensusAddressCodec := h ()
          AuthConfig := inp.AuthConfig
          StakingConfig := inp.StakingConfig }
  | _, _, _ =>
    match inp.AuthConfig with
    | none => .error emptyBech32Panic
    | some auth =>
      if auth.Bech32Prefix = "" then .error emptyBech32Panic
      else
        let shared := inp.StakingConfig.isSome
        let staking : StakingModule :=
          match inp.StakingConfig with
          | none => {}
          | some s => s
        let staking :=
          if staking.Bech32PrefixValidator = "" then
            { staking with Bech32PrefixValidator := auth.Bech32Prefix ++ "valoper" }
          else staking
        let staking :=
          if staking.Bech32PrefixConsensus = "" then
            { staking with Bech32PrefixConsensus := auth.Bech32Prefix ++ "valcons" }
          else staking
        .ok { addressCodec := NewBech32Codec auth.Bech32Prefix
              validatorAddressCodec := NewBech32Codec staking.Bech32PrefixValidator
              consensusAddressCodec := NewBech32Codec staking.Bech32PrefixConsensus
              AuthConfig := some auth
              StakingConfig := if shared then some staking else none }

/-- The three factory overrides are all supplied. -/
def AddressCodecInputs.allFactories (inp : AddressCodecInputs) : Bool :=
  inp.AddressCodecFactory.isSome && inp.ValidatorAddressCodecFactory.isSome &&
    inp.ConsensusAddressCodecFactory.isSome

/-! ## Sequences of allocations -/

/-- One key allocation requested during composition: a persistent key or a memory
key for the named module. -/
inductive KeyRequest where
  | persistent (moduleName : String)
  | memory (moduleName : String)
deriving DecidableEq, Repr

/-- Serve one request by calling the matching allocator; the returned key is
dropped, the builder is kept. A panic of the allocator aborts. -/
def allocate (config : Module) (app : AppBuilder) : KeyRequest → Except String AppBuilder
  | .persistent m =>
    match ProvideKVStoreKey config { name := m } app with
    | .error e => .error e
    | .ok (_, app1) => .ok app1
  | .memory m => .ok (ProvideMemoryStoreKey { name := m } app).2

/-- Serve a sequence of requests in order; the first panic aborts the composition and
no App is built. -/
def allocateAll (config : Module) : AppBuilder → List KeyRequest → Except String AppBuilder
  | app, [] => .ok app
  | app, r :: rest =>
    match allocate config app r with
    | .error e => .error e
    | .ok app1 => allocateAll config app1 rest

/-- The name of the key that serving a request appends: the resolved persistent name
or the memory name of the module. -/
def KeyRequest.keyName (config : Module) : KeyRequest → String
  | .persistent m => storeKeyName config m
  | .memory m => "memory:" ++ m

/-- The names of the keys in the store-key list of the App, in order. -/
def storeKeyNames (app : AppBuilder) : List String :=
  app.app.storeKeys.map StoreKey.Name

/-! ## Concrete inputs -/

/-- A config with three override entries, two of them for module `bank`. -/
def sampleOverrides : Module :=
  { OverrideStoreKeys :=
      [ { ModuleName := "gov", KvStoreKey := "g1" },
        { ModuleName := "bank", KvStoreKey := "custombank" },
        { ModuleName := "bank", KvStoreKey := "other" } ] }

/-- A config without store-key overrides. -/
def noOverrides : Module := { OverrideStoreKeys := [] }

/-- A config with the single override from the store-key override test. -/
def bankOverride : Module :=
  { OverrideStoreKeys := [{ ModuleName := "bank", KvStoreKey := "custombank" }] }

/-- A config whose override entry for module `bank` leaves `KvStoreKey` at its
default, the empty string. -/
def emptyOverride : Module :=
  { OverrideStoreKeys := [{ ModuleName := "bank", KvStoreKey := "" }] }

/-- A builder whose key list already holds the persistent key of module `auth`. -/
def authAppBuilder : AppBuilder :=
  registerStoreKey (freshAppBuilder 1 2 3 4) (StoreKey.kv { name := "auth" })

/-- Inputs without factories: auth prefix `cosmos` and a staking config whose two
prefixes are both empty. -/
def emptyStakingInputs : AddressCodecInputs :=
  { AuthConfig := some { Bech32Prefix := "cosmos" }
    StakingConfig := some { Bech32PrefixValidator := "", Bech32PrefixConsensus := "" }
    AddressCodecFactory := none
    ValidatorAddressCodecFactory := none
    ConsensusAddressCodecFactory := none }

/-- Inputs with only the account factory: auth prefix `cosmos` and a staking config
that sets the validator prefix and leaves the consensus prefix empty. -/
def partialStakingInputs : AddressCodecInputs :=
  { AuthConfig := some { Bech32Prefix := "cosmos" }
    StakingConfig := some { Bech32PrefixValidator := "myval", Bech32PrefixConsensus := "" }
    AddressCodecFactory := some (fun _ => Codec.external 7)
    ValidatorAddressCodecFactory := none
    ConsensusAddressCodecFactory := none }

/-- Two requests on two different modules whose key names coincide: the persistent
key of a module called `memory:bank` and the memory key of module `bank`. -/
def clashingRequests : List KeyRequest :=
  [KeyRequest.persistent "memory:bank", KeyRequest.memory "bank"]

/-- The requests of the modules `auth` and `bank`, one of each kind. -/
def authBankRequests : List KeyRequest :=
  [KeyRequest.persistent "auth", KeyRequest.memory "auth",
   KeyRequest.persistent "bank", KeyRequest.memory "bank"]

/-! ## Shared lemmas -/

theorem storeKeyOverrideLoop_eq_find (l : List StoreKeyConfig) (m : String) :
    storeKeyOverrideLoop l m = l.find? (fun c => decide (c.ModuleName = m)) := by
  induction l with
  | nil => rfl
  | cons c rest ih =>
    by_cases h : c.ModuleName = m
    · simp [storeKeyOverrideLoop, List.find?, h]
    · simp [storeKeyOverrideLoop, List.find?, h, ih]

theorem storeKeyOverrideLoop_first (pre post : List StoreKeyConfig) (e : StoreKeyConfig)
    (m : String) (he : e.ModuleName = m) (hpre : ∀ x ∈ pre, x.ModuleName ≠ m) :
    storeKeyOverrideLoop (pre ++ e :: post) m = some e := by
  induction pre with
  | nil => simp [storeKeyOverrideLoop, he]
  | cons c rest ih =>
    have hc : c.ModuleName ≠ m := hpre c (List.mem_cons_self _ _)
    have hrest : ∀ x ∈ rest, x.ModuleName ≠ m := fun x hx => hpre x (List.mem_cons_of_mem _ hx)
    simp [storeKeyOverrideLoop, hc, ih hrest]

theorem storeKeyOverrideLoop_none (l : List StoreKeyConfig) (m : String)
    (h : ∀ x ∈ l, x.ModuleName ≠ m) : storeKeyOverrideLoop l m = none := by
  induction l with
  | nil => rfl
  | cons c rest ih =>
    have hc : c.ModuleName ≠ m := h c (List.mem_cons_self _ _)
    have hrest : ∀ x ∈ rest, x.ModuleName ≠ m := fun x hx => h x (List.mem_cons_of_mem _ hx)
    simp [storeKeyOverrideLoop, hc, ih hrest]

theorem storeKeyOverrideLoop_skip (pre post : List StoreKeyConfig) (e : StoreKeyConfig)
    (m : String) (he : e.ModuleName ≠ m) :
    storeKeyOverrideLoop (pre ++ e :: post) m = storeKeyOverrideLoop (pre ++ post) m := by
  induction pre with
  | nil => simp [storeKeyOverrideLoop, he]
  | cons c rest ih =>
    by_cases hc : c.ModuleName = m
    · simp [storeKeyOverrideLoop, hc]
    · simp [storeKeyOverrideLoop, hc, ih]

theorem storeKeyName_eq (config : Module) (m : String) :
    storeKeyName config m =
      match storeKeyOverrideLoop config.OverrideStoreKeys m with
      | some o => o.KvStoreKey
      | none => m := rfl

theorem storeKeyName_noOverrides (config : Module) (m : String)
    (h : config.OverrideStoreKeys = []) : storeKeyName config m = m := by
  rw [storeKeyName_eq, h]; rfl

theorem ProvideKVStoreKey_ok (config : Module) (key : ModuleKey) (app : AppBuilder)
    (h : storeKeyName config key.Name ≠ "") :
    ProvideKVStoreKey config key app =
      .ok ({ name := storeKeyName config key.Name },
        registerStoreKey app (StoreKey.kv { name := storeKeyName config key.Name })) := by
  simp [ProvideKVStoreKey, NewKVStoreKey, h]

theorem ProvideKVStoreKey_error (config : Module) (key : ModuleKey) (app : AppBuilder)
    (h : storeKeyName config key.Name = "") :
    ProvideKVStoreKey config key app = .error emptyKeyNamePanic := by
  simp [ProvideKVStoreKey, NewKVStoreKey, h]

theorem ProvideKVStoreKey_ok_inv (config : Module) (key : ModuleKey) (app app1 : AppBuilder)
    (k : KVStoreKey) (h : ProvideKVStoreKey config key app = .ok (k, app1)) :
    storeKeyName config key.Name ≠ "" ∧ k = { name := storeKeyName config key.Name } ∧
      app1 = registerStoreKey app (StoreKey.kv k) := by
  by_cases hn : storeKeyName config key.Name = ""
  · rw [ProvideKVStoreKey_error config key app hn] at h
    cases h
  · rw [ProvideKVStoreKey_ok config key app hn] at h
    injection h with h
    injection h with h1 h2
    subst h1
    exact ⟨hn, rfl, h2.symm⟩

theorem memory_name_cancel (a b : String) (h : "memory:" ++ a = "memory:" ++ b) : a = b := by
  have h2 := congrArg String.data h
  simp only [String.data_append] at h2
  exact String.ext (List.append_cancel_left h2)

/-! ## Store-key allocation -/

/-- C3, refuted as stated: with the override entry `bank` whose `KvStoreKey` is empty,
`storeKeyOverride` finds the entry, yet `ProvideKVStoreKey` for module `bank` panics
in the key constructor and returns no key at all, so no key named by the entry. -/
theorem ProvideKVStoreKey_empty_override_panics :
    storeKeyOverride emptyOverride "bank" = some { ModuleName := "bank", KvStoreKey := "" } ∧
    ProvideKVStoreKey emptyOverride { name := "bank" } (freshAppBuilder 1 2 3 4) =
      .error emptyKeyNamePanic ∧
    ¬ ∃ k app1, ProvideKVStoreKey emptyOverride { name := "bank" } (freshAppBuilder 1 2 3 4) =
      .ok (k, app1) := by
  refine ⟨rfl, rfl, ?_⟩
  rintro ⟨k, app1, h⟩
  have h2 : ProvideKVStoreKey emptyOverride { name := "bank" } (freshAppBuilder 1 2 3 4) =
      .error emptyKeyNamePanic := rfl
  rw [h2] at h
  cases h

/-- C3, amended: for module `m`, when the first override entry whose `ModuleName` is
`m` has a non-empty `KvStoreKey`, `ProvideKVStoreKey` returns a persistent key with
that name, and when no entry has that `ModuleName` and `m` is non-empty it returns a
key named `m`; when the name so resolved is empty the call panics; an override entry
for another module, placed anywhere in the list, does not change the outcome for
`m`; with the single override `bank -> custombank`, module `bank` gets `custombank`
and every other non-empty module name its own name. -/
theorem ProvideKVStoreKey_name (config : Module) (m : String) (app : AppBuilder) :
    (∀ pre e post, config.OverrideStoreKeys = pre ++ e :: post → e.ModuleName = m →
        (∀ x ∈ pre, x.ModuleName ≠ m) →
        (e.KvStoreKey ≠ "" →
          ∃ k app1, ProvideKVStoreKey config { name := m } app = .ok (k, app1) ∧
            k.Name = e.KvStoreKey) ∧
        (e.KvStoreKey = "" →
          ProvideKVStoreKey config { name := m } app = .error emptyKeyNamePanic)) ∧
    ((∀ x ∈ config.OverrideStoreKeys, x.ModuleName ≠ m) →
        (m ≠ "" →
          ∃ k app1, ProvideKVStoreKey config { name := m } app = .ok (k, app1) ∧ k.Name = m) ∧
        (m = "" → ProvideKVStoreKey config { name := m } app = .error emptyKeyNamePanic)) ∧
    (∀ pre e post, config.OverrideStoreKeys = pre ++ post → e.ModuleName ≠ m →
        ProvideKVStoreKey { OverrideStoreKeys := pre ++ e :: post } { name := m } app =
          ProvideKVStoreKey config { name := m } app) ∧
    (∃ k app1, ProvideKVStoreKey bankOverride { name := "bank" } app = .ok (k, app1) ∧
        k.Name = "custombank") ∧
    (m ≠ "bank" → m ≠ "" →
      ∃ k app1, ProvideKVStoreKey bankOverride { name := m } app = .ok (k, app1) ∧
        k.Name = m) := by
  refine ⟨?_, ?_, ?_, ?_, ?_⟩
  · intro pre e post hcfg he hpre
    have hname : storeKeyName config m = e.KvStoreKey := by
      rw [storeKeyName_eq, hcfg, storeKeyOverrideLoop_first pre post e m he hpre]
    constructor
    · intro hne
      have h : storeKeyName config (ModuleKey.Name { name := m }) ≠ "" := by
        show storeKeyName config m ≠ ""
        rw [hname]; exact hne
      exact ⟨_, _, ProvideKVStoreKey_ok config { name := m } app h, hname⟩
    · intro hemp
      exact ProvideKVStoreKey_error config { name := m } app (hname.trans hemp)
  · intro hnone
    have hname : storeKeyName config m = m := by
      rw [storeKeyName_eq, storeKeyOverrideLoop_none _ m hnone]
    constructor
    · intro hne
      have h : storeKeyName config (ModuleKey.Name { name := m }) ≠ "" := by
        show storeKeyName config m ≠ ""
        rw [hname]; exact hne
      exact ⟨_, _, ProvideKVStoreKey_ok config { name := m } app h, hname⟩
    · intro hemp
      exact ProvideKVStoreKey_error config { name := m } app (hname.trans hemp)
  · intro pre e post hcfg he
    have hname : storeKeyName { OverrideStoreKeys := pre ++ e :: post } m =
        storeKeyName config m := by
      rw [storeKeyName_eq, storeKeyName_eq, hcfg]
      simp only [storeKeyOverrideLoop_skip pre post e m he]
    simp only [ProvideKVStoreKey, ModuleKey.Name, hname]
  · exact ⟨_, _, ProvideKVStoreKey_ok bankOverride { name := "bank" } app (by decide), rfl⟩
  · intro hm hne
    have hname : storeKeyName bankOverride m = m := by
      have : ¬ ("bank" = m) := fun h => hm h.symm
      simp [storeKeyName, storeKeyOverride, bankOverride, storeKeyOverrideLoop, this]
    have h : storeKeyName bankOverride (ModuleKey.Name { name := m }) ≠ "" := by
      show storeKeyName bankOverride m ≠ ""
      rw [hname]; exact hne
    exact ⟨_, _, ProvideKVStoreKey_ok bankOverride { name := m } app h, hname⟩

/-- C3 amended, at concrete inputs: the first of two `bank` entries wins, a module
without an entry keeps its own name, and under the `bank` override module `auth`
keeps its own name. -/
theorem ProvideKVStoreKey_name_witness :
    (∃ k app1, ProvideKVStoreKey sampleOverrides { name := "bank" } (freshAppBuilder 1 2 3 4) =
        .ok (k, app1) ∧ k.Name = "custombank") ∧
    (∃ k app1, ProvideKVStoreKey sampleOverrides { name := "auth" } (freshAppBuilder 1 2 3 4) =
        .ok (k, app1) ∧ k.Name = "auth") ∧
    (∃ k app1, ProvideKVStoreKey bankOverride { name := "auth" } (freshAppBuilder 1 2 3 4) =
        .ok (k, app1) ∧ k.Name = "auth") :=
  ⟨((ProvideKVStoreKey_name sampleOverrides "bank" (freshAppBuilder 1 2 3 4)).1
      [{ ModuleName := "gov", KvStoreKey := "g1" }]
      { ModuleName := "bank", KvStoreKey := "custombank" }
      [{ ModuleName := "bank", KvStoreKey := "other" }] rfl rfl (by decide)).1 (by decide),
   ((ProvideKVStoreKey_name sampleOverrides "auth" (freshAppBuilder 1 2 3 4)).2.1
      (by decide)).1 (by decide),
   (ProvideKVStoreKey_name sampleOverrides "auth" (freshAppBuilder 1 2 3 4)).2.2.2.2
      (by decide) (by decide)⟩

/-- C4, refuted as stated: the empty module name and `bank` are different module
names, and under a config without overrides `ProvideKVStoreKey` for the empty name
panics, so it yields no persistent key named after the module. -/
theorem ProvideKVStoreKey_empty_module_panics :
    ("" : String) ≠ "bank" ∧ noOverrides.OverrideStoreKeys = [] ∧
    ProvideKVStoreKey noOverrides { name := "" } (freshAppBuilder 1 2 3 4) =
      .error emptyKeyNamePanic ∧
    ¬ ∃ k app1, ProvideKVStoreKey noOverrides { name := "" } (freshAppBuilder 1 2 3 4) =
      .ok (k, app1) := by
  refine ⟨by decide, rfl, rfl, ?_⟩
  rintro ⟨k, app1, h⟩
  have h2 : ProvideKVStoreKey noOverrides { name := "" } (freshAppBuilder 1 2 3 4) =
      .error emptyKeyNamePanic := rfl
  rw [h2] at h
  cases h

/-- C4, amended: for module names `m1 ≠ m2`, under a config without store-key
overrides and when both names are non-empty, `ProvideKVStoreKey` returns persistent
keys named `m1` and `m2`, which differ; under every config and for all names, empty
or not, the memory keys are named `memory:m1` and `memory:m2` and differ. The
builder states the calls run on play no part. -/
theorem key_names_of_distinct_modules (config : Module) (app1 app2 : AppBuilder)
    (m1 m2 : String) (h : m1 ≠ m2) :
    (config.OverrideStoreKeys = [] → m1 ≠ "" → m2 ≠ "" →
      ∃ k1 a1 k2 a2,
        ProvideKVStoreKey config { name := m1 } app1 = .ok (k1, a1) ∧
        ProvideKVStoreKey config { name := m2 } app2 = .ok (k2, a2) ∧
        k1.Name = m1 ∧ k2.Name = m2 ∧ k1.Name ≠ k2.Name) ∧
    (ProvideMemoryStoreKey { name := m1 } app1).1.Name = "memory:" ++ m1 ∧
    (ProvideMemoryStoreKey { name := m2 } app2).1.Name = "memory:" ++ m2 ∧
    (ProvideMemoryStoreKey { name := m1 } app1).1.Name ≠
      (ProvideMemoryStoreKey { name := m2 } app2).1.Name := by
  refine ⟨?_, rfl, rfl, ?_⟩
  · intro hcfg h1 h2
    have e1 : storeKeyName config m1 = m1 := storeKeyName_noOverrides config m1 hcfg
    have e2 : storeKeyName config m2 = m2 := storeKeyName_noOverrides config m2 hcfg
    have n1 : storeKeyName config (ModuleKey.Name { name := m1 }) ≠ "" := by
      show storeKeyName config m1 ≠ ""
      rw [e1]; exact h1
    have n2 : storeKeyName config (ModuleKey.Name { name := m2 }) ≠ "" := by
      show storeKeyName config m2 ≠ ""
      rw [e2]; exact h2
    refine ⟨_, _, _, _, ProvideKVStoreKey_ok config { name := m1 } app1 n1,
      ProvideKVStoreKey_ok config { name := m2 } app2 n2, e1, e2, ?_⟩
    show storeKeyName config m1 ≠ storeKeyName config m2
    rw [e1, e2]; exact h
  · intro hmem
    exact h (memory_name_cancel m1 m2 hmem)

/-- C4 amended, at concrete inputs: modules `auth` and `bank`. -/
theorem key_names_of_distinct_modules_witness :
    (∃ k1 a1 k2 a2,
      ProvideKVStoreKey noOverrides { name := "auth" } (freshAppBuilder 1 2 3 4) = .ok (k1, a1) ∧
      ProvideKVStoreKey noOverrides { name := "bank" } (freshAppBuilder 1 2 3 4) = .ok (k2, a2) ∧
      k1.Name = "auth" ∧ k2.Name = "bank" ∧ k1.Name ≠ k2.Name) ∧
    ((ProvideMemoryStoreKey { name := "auth" } (freshAppBuilder 1 2 3 4)).1.Name ≠
      (ProvideMemoryStoreKey { name := "bank" } (freshAppBuilder 1 2 3 4)).1.Name) :=
  ⟨(key_names_of_distinct_modules noOverrides (freshAppBuilder 1 2 3 4)
      (freshAppBuilder 1 2 3 4) "auth" "bank" (by decide)).1 rfl (by decide) (by decide),
   (key_names_of_distinct_modules noOverrides (freshAppBuilder 1 2 3 4)
      (freshAppBuilder 1 2 3 4) "auth" "bank" (by decide)).2.2.2⟩

/-- C6, refuted as stated: on a builder whose key list holds one key, the call of
`ProvideKVStoreKey` for module `bank` under the override with the empty `KvStoreKey`
panics; it returns no key and appends nothing. -/
theorem ProvideKVStoreKey_panic_appends_nothing :
    authAppBuilder.app.storeKeys = [StoreKey.kv { name := "auth" }] ∧
    ProvideKVStoreKey emptyOverride { name := "bank" } authAppBuilder =
      .error emptyKeyNamePanic ∧
    ¬ ∃ k app1, ProvideKVStoreKey emptyOverride { name := "bank" } authAppBuilder =
        .ok (k, app1) ∧
      app1.app.storeKeys = authAppBuilder.app.storeKeys ++ [StoreKey.kv k] := by
  refine ⟨rfl, rfl, ?_⟩
  rintro ⟨k, app1, h, _⟩
  have h2 : ProvideKVStoreKey emptyOverride { name := "bank" } authAppBuilder =
      .error emptyKeyNamePanic := rfl
  rw [h2] at h
  cases h

/-- C6, amended: every call of `ProvideMemoryStoreKey`, and every call of
`ProvideKVStoreKey` that returns, which it does exactly when the resolved key name
is non-empty, leaves the store-key list equal to the old list followed by the one
key the call returns, and leaves every other field of the App as it was; calling the
same allocator a second time for the same module then returns again and appends a
second key with the same name. -/
theorem allocation_appends (config : Module) (key : ModuleKey) (app : AppBuilder) :
    ((∃ k app1, ProvideKVStoreKey config key app = .ok (k, app1)) ↔
      storeKeyName config key.Name ≠ "") ∧
    (∀ k app1, ProvideKVStoreKey config key app = .ok (k, app1) →
      app1 = { app := { app.app with storeKeys := app.app.storeKeys ++ [StoreKey.kv k] } } ∧
      ∃ k2 app2, ProvideKVStoreKey config key app1 = .ok (k2, app2) ∧
        app2.app.storeKeys = app.app.storeKeys ++ [StoreKey.kv k, StoreKey.kv k2] ∧
        k.Name = k2.Name) ∧
    (ProvideMemoryStoreKey key app).2 =
      { app := { app.app with
          storeKeys := app.app.storeKeys ++ [StoreKey.memory (ProvideMemoryStoreKey key app).1] } } ∧
    (∃ k1 k2 : MemoryStoreKey,
      (ProvideMemoryStoreKey key app).1 = k1 ∧
      (ProvideMemoryStoreKey key (ProvideMemoryStoreKey key app).2).1 = k2 ∧
      (ProvideMemoryStoreKey key (ProvideMemoryStoreKey key app).2).2.app.storeKeys =
        app.app.storeKeys ++ [StoreKey.memory k1, StoreKey.memory k2] ∧
      k1.Name = k2.Name) := by
  refine ⟨?_, ?_, rfl, ⟨_, _, rfl, rfl, ?_, rfl⟩⟩
  · constructor
    · rintro ⟨k, app1, h⟩
      exact (ProvideKVStoreKey_ok_inv config key app app1 k h).1
    · intro h
      exact ⟨_, _, ProvideKVStoreKey_ok config key app h⟩
  · intro k app1 h
    obtain ⟨hne, hk, happ⟩ := ProvideKVStoreKey_ok_inv config key app app1 k h
    refine ⟨happ, _, _, ProvideKVStoreKey_ok config key app1 hne, ?_, ?_⟩
    · rw [happ, hk]
      simp [registerStoreKey]
    · rw [hk]
  · simp [ProvideMemoryStoreKey, registerStoreKey]

/-- C6 amended, at a concrete input: two calls for module `bank` under the override
`bank -> custombank` on a builder that already holds the key `auth`. -/
theorem allocation_appends_witness :
    ∃ k app1 k2 app2,
      ProvideKVStoreKey bankOverride { name := "bank" } authAppBuilder = .ok (k, app1) ∧
      ProvideKVStoreKey bankOverride { name := "bank" } app1 = .ok (k2, app2) ∧
      app1.app.storeKeys = [StoreKey.kv { name := "auth" }, StoreKey.kv k] ∧
      app2.app.storeKeys = [StoreKey.kv { name := "auth" }, StoreKey.kv k, StoreKey.kv k2] ∧
      k.Name = "custombank" ∧ k2.Name = "custombank" := by
  have hthm := allocation_appends bankOverride { name := "bank" } authAppBuilder
  obtain ⟨k, app1, h1⟩ := hthm.1.2 (by decide)
  obtain ⟨happ, k2, app2, h2, hkeys, hname⟩ := hthm.2.1 k app1 h1
  have hk : k = { name := "custombank" } :=
    (ProvideKVStoreKey_ok_inv bankOverride { name := "bank" } authAppBuilder app1 k h1).2.1
  refine ⟨k, app1, k2, app2, h1, h2, ?_, hkeys, ?_, ?_⟩
  · rw [happ]; rfl
  · rw [hk]; rfl
  · rw [← hname, hk]; rfl

/-! ## Address-codec resolution -/

theorem ProvideAddressCodec_noFactories (inp : AddressCodecInputs)
    (hf : inp.allFactories = false) :
    ProvideAddressCodec inp =
      match inp.AuthConfig with
      | none => .error emptyBech32Panic
      | some auth =>
        if auth.Bech32Prefix = "" then .error emptyBech32Panic
        else
          let staking : StakingModule :=
            match inp.StakingConfig with
            | none => {}
            | some s => s
          let staking1 : StakingModule :=
            if staking.Bech32PrefixValidator = "" then
              { staking with Bech32PrefixValidator := auth.Bech32Prefix ++ "valoper" }
            else staking
          let staking2 : StakingModule :=
            if staking1.Bech32PrefixConsensus = "" then
              { staking1 with Bech32PrefixConsensus := auth.Bech32Prefix ++ "valcons" }
            else staking1
          .ok { addressCodec := NewBech32Codec auth.Bech32Prefix
                validatorAddressCodec := NewBech32Codec staking2.Bech32PrefixValidator
                consensusAddressCodec := NewBech32Codec staking2.Bech32PrefixConsensus
                AuthConfig := some auth
                StakingConfig := if inp.StakingConfig.isSome then some staking2 else none } := by
  obtain ⟨auth, staking, f, g, h⟩ := inp
  cases f <;> cases g <;> cases h <;>
    first
    | rfl
    | exact absurd hf (by simp [AddressCodecInputs.allFactories])

theorem ProvideAddressCodec_allFactories (inp : AddressCodecInputs) (f g h : Unit → Codec)
    (hf : inp.AddressCodecFactory = some f) (hg : inp.ValidatorAddressCodecFactory = some g)
    (hh : inp.ConsensusAddressCodecFactory = some h) :
    ProvideAddressCodec inp =
      .ok { addressCodec := f ()
            validatorAddressCodec := g ()
            consensusAddressCodec := h ()
            AuthConfig := inp.AuthConfig
            StakingConfig := inp.StakingConfig } := by
  obtain ⟨auth, staking, f0, g0, h0⟩ := inp
  simp only at hf hg hh
  subst hf hg hh
  rfl

/-- C1: when the three factories are not all supplied and the auth config has a
non-empty `Bech32Prefix` p, `ProvideAddressCodec` returns; the account codec is the
bech32 codec for p; with no staking config the validator and consensus codecs are
the bech32 codecs for `p ++ "valoper"` and `p ++ "valcons"`; with a staking config
each of the two is the bech32 codec for the configured prefix when that is non-empty
and for the default otherwise, each field on its own. -/
theorem ProvideAddressCodec_bech32 (inp : AddressCodecInputs) (auth : AuthModule)
    (hf : inp.allFactories = false) (ha : inp.AuthConfig = some auth)
    (hp : auth.Bech32Prefix ≠ "") :
    ∃ out, ProvideAddressCodec inp = .ok out ∧
      out.addressCodec = NewBech32Codec auth.Bech32Prefix ∧
      (inp.StakingConfig = none →
        out.validatorAddressCodec = NewBech32Codec (auth.Bech32Prefix ++ "valoper") ∧
        out.consensusAddressCodec = NewBech32Codec (auth.Bech32Prefix ++ "valcons")) ∧
      (∀ s, inp.StakingConfig = some s →
        out.validatorAddressCodec =
          NewBech32Codec (if s.Bech32PrefixValidator = "" then auth.Bech32Prefix ++ "valoper"
            else s.Bech32PrefixValidator) ∧
        out.consensusAddressCodec =
          NewBech32Codec (if s.Bech32PrefixConsensus = "" then auth.Bech32Prefix ++ "valcons"
            else s.Bech32PrefixConsensus)) := by
  rw [ProvideAddressCodec_noFactories inp hf, ha]
  simp only [hp, if_false]
  refine ⟨_, rfl, rfl, ?_, ?_⟩
  · intro hs
    rw [hs]
    exact ⟨rfl, rfl⟩
  · intro s hs
    rw [hs]
    by_cases hv : s.Bech32PrefixValidator = "" <;> by_cases hc : s.Bech32PrefixConsensus = "" <;>
      simp [hv, hc]

/-- C1 at a concrete input: prefix `cosmos`, validator prefix set to `myval`,
consensus prefix left empty, and only one of the three factories supplied. -/
theorem ProvideAddressCodec_bech32_witness :
    ∃ out, ProvideAddressCodec partialStakingInputs = .ok out ∧
      out.addressCodec = NewBech32Codec "cosmos" ∧
      out.validatorAddressCodec = NewBech32Codec "myval" ∧
      out.consensusAddressCodec = NewBech32Codec "cosmosvalcons" := by
  obtain ⟨out, hok, hacc, _, hs⟩ :=
    ProvideAddressCodec_bech32 partialStakingInputs { Bech32Prefix := "cosmos" } rfl rfl
      (by decide)
  exact ⟨out, hok, hacc, (hs _ rfl).1, (hs _ rfl).2⟩

/-- C2: `ProvideAddressCodec` panics exactly when the three factories are not all
supplied and the auth config is absent or has an empty `Bech32Prefix`; on every
other input it returns three codecs. -/
theorem ProvideAddressCodec_panics_iff (inp : AddressCodecInputs) :
    ((∃ msg, ProvideAddressCodec inp = .error msg) ↔
      (inp.allFactories = false ∧
        (inp.AuthConfig = none ∨ ∃ auth, inp.AuthConfig = some auth ∧ auth.Bech32Prefix = ""))) ∧
    ((∃ out, ProvideAddressCodec inp = .ok out) ↔
      ¬ (inp.allFactories = false ∧
        (inp.AuthConfig = none ∨ ∃ auth, inp.AuthConfig = some auth ∧ auth.Bech32Prefix = ""))) := by
  obtain ⟨auth, staking, f, g, h⟩ := inp
  by_cases hall : (AddressCodecInputs.mk auth staking f g h).allFactories = true
  · have hok : ∃ out, ProvideAddressCodec (AddressCodecInputs.mk auth staking f g h) = .ok out := by
      cases f with
      | none => simp [AddressCodecInputs.allFactories] at hall
      | some f =>
        cases g with
        | none => simp [AddressCodecInputs.allFactories] at hall
        | some g =>
          cases h with
          | none => simp [AddressCodecInputs.allFactories] at hall
          | some h => exact ⟨_, rfl⟩
    obtain ⟨out, hout⟩ := hok
    constructor
    · constructor
      · rintro ⟨msg, hmsg⟩
        rw [hout] at hmsg
        cases hmsg
      · rintro ⟨hno, _⟩
        rw [hall] at hno
        cases hno
    · constructor
      · rintro _ ⟨hno, _⟩
        rw [hall] at hno
        cases hno
      · intro _
        exact ⟨out, hout⟩
  · have hno : (AddressCodecInputs.mk auth staking f g h).allFactories = false := by
      simpa using hall
    rw [ProvideAddressCodec_noFactories _ hno]
    cases auth with
    | none => simp [hno]
    | some a =>
      by_cases hp : a.Bech32Prefix = ""
      · simp [hno, hp]
      · simp [hno, hp]

/-- C7: with all three factories supplied, `ProvideAddressCodec` returns exactly the
three values the factories produce, whatever the auth and staking configs are
(absent, empty prefix, or set); two calls that differ only in the configs return the
same three codecs. -/
theorem ProvideAddressCodec_factories (auth auth2 : Option AuthModule)
    (staking staking2 : Option StakingModule) (f g h : Unit → Codec) :
    ∃ out out2,
      ProvideAddressCodec
        { AuthConfig := auth, StakingConfig := staking, AddressCodecFactory := some f,
          ValidatorAddressCodecFactory := some g, ConsensusAddressCodecFactory := some h }
        = .ok out ∧
      ProvideAddressCodec
        { AuthConfig := auth2, StakingConfig := staking2, AddressCodecFactory := some f,
          ValidatorAddressCodecFactory := some g, ConsensusAddressCodecFactory := some h }
        = .ok out2 ∧
      out.addressCodec = f () ∧ out.validatorAddressCodec = g () ∧
      out.consensusAddressCodec = h () ∧
      out2.addressCodec = out.addressCodec ∧
      out2.validatorAddressCodec = out.validatorAddressCodec ∧
      out2.consensusAddressCodec = out.consensusAddressCodec :=
  ⟨_, _, rfl, rfl, rfl, rfl, rfl, rfl, rfl, rfl⟩

/-- C10, refuted as stated: with auth prefix `cosmos`, no factories, and a staking
config whose two prefixes are empty, the call returns and the staking config of the
caller then holds `cosmosvaloper` and `cosmosvalcons`, not the empty strings it held
before. -/
theorem ProvideAddressCodec_mutates_staking :
    emptyStakingInputs.StakingConfig =
      some { Bech32PrefixValidator := "", Bech32PrefixConsensus := "" } ∧
    ∃ out, ProvideAddressCodec emptyStakingInputs = .ok out ∧
      out.StakingConfig =
        some { Bech32PrefixValidator := "cosmosvaloper",
               Bech32PrefixConsensus := "cosmosvalcons" } ∧
      out.StakingConfig ≠ emptyStakingInputs.StakingConfig := by
  refine ⟨rfl, _, rfl, ?_, ?_⟩ <;> decide

/-- C10, amended: on every input on which `ProvideAddressCodec` returns, the auth
config is unchanged; the staking config is unchanged when all three factories are
supplied, and stays absent when it was absent; otherwise each of its two prefix
fields keeps its value when non-empty and is overwritten with `p ++ "valoper"`
(validator) or `p ++ "valcons"` (consensus) when empty, p being the auth prefix. -/
theorem ProvideAddressCodec_config_effect (inp : AddressCodecInputs)
    (out : AddressCodecOutputs) (hret : ProvideAddressCodec inp = .ok out) :
    out.AuthConfig = inp.AuthConfig ∧
    (inp.allFactories = true → out.StakingConfig = inp.StakingConfig) ∧
    (inp.StakingConfig = none → out.StakingConfig = none) ∧
    (∀ s auth, inp.allFactories = false → inp.StakingConfig = some s →
      inp.AuthConfig = some auth →
      out.StakingConfig = some
        { Bech32PrefixValidator :=
            if s.Bech32PrefixValidator = "" then auth.Bech32Prefix ++ "valoper"
            else s.Bech32PrefixValidator
          Bech32PrefixConsensus :=
            if s.Bech32PrefixConsensus = "" then auth.Bech32Prefix ++ "valcons"
            else s.Bech32PrefixConsensus }) := by
  by_cases hall : inp.allFactories = true
  · obtain ⟨auth, staking, f, g, h⟩ := inp
    cases f with
    | none => simp [AddressCodecInputs.allFactories] at hall
    | some f =>
      cases g with
      | none => simp [AddressCodecInputs.allFactories] at hall
      | some g =>
        cases h with
        | none => simp [AddressCodecInputs.allFactories] at hall
        | some h =>
          rw [ProvideAddressCodec_allFactories _ f g h rfl rfl rfl] at hret
          injection hret with hret
          subst hret
          refine ⟨rfl, fun _ => rfl, fun hs => hs, ?_⟩
          intro s a hno
          rw [hall] at hno
          cases hno
  · have hno : inp.allFactories = false := by simpa using hall
    rw [ProvideAddressCodec_noFactories inp hno] at hret
    cases hauth : inp.AuthConfig with
    | none => rw [hauth] at hret; cases hret
    | some a =>
      rw [hauth] at hret
      by_cases hp : a.Bech32Prefix = ""
      · simp [hp] at hret
      · simp only [hp, if_false] at hret
        injection hret with hret
        subst hret
        refine ⟨rfl, fun h => absurd h hall, ?_, ?_⟩
        · intro hs
          simp [hs]
        · intro s auth _ hs ha
          cases ha
          rw [hs]
          by_cases hv : s.Bech32PrefixValidator = "" <;>
            by_cases hc : s.Bech32PrefixConsensus = "" <;> simp [hv, hc]

/-- C10 amended, at a concrete input: validator prefix `myval` is kept and the empty
consensus prefix becomes `cosmosvalcons`. -/
theorem ProvideAddressCodec_config_effect_witness :
    ∃ out, ProvideAddressCodec partialStakingInputs = .ok out ∧
      out.AuthConfig = partialStakingInputs.AuthConfig ∧
      out.StakingConfig =
        some { Bech32PrefixValidator := "myval", Bech32PrefixConsensus := "cosmosvalcons" } :=
  ⟨_, rfl,
    (ProvideAddressCodec_config_effect partialStakingInputs _ rfl).1,
    (ProvideAddressCodec_config_effect partialStakingInputs _ rfl).2.2.2
      { Bech32PrefixValidator := "myval", Bech32PrefixConsensus := "" }
      { Bech32Prefix := "cosmos" } rfl rfl rfl⟩

/-! ## Environment -/

theorem ProvideEnvironment_ok (logger : Logger) (config : Module) (key : ModuleKey)
    (app : AppBuilder) (h : storeKeyName config key.Name ≠ "") :
    ProvideEnvironment logger config key app =
      .ok (({ Logger := logger
              BranchService := none
              EventService := some NewEventService
              GasService := some NewGasMeterService
              HeaderService := none
              KVStoreService := some (NewKVStoreService (storeKeyName config key.Name).toUTF8)
              MemStoreService := some (NewMemoryStoreService ("memory:" ++ key.Name).toUTF8) },
            NewKVStoreService (storeKeyName config key.Name).toUTF8,
            NewMemoryStoreService ("memory:" ++ key.Name).toUTF8),
          registerStoreKey
            (registerStoreKey app (StoreKey.kv { name := storeKeyName config key.Name }))
            (StoreKey.memory { name := "memory:" ++ key.Name })) := by
  simp only [ProvideEnvironment, ProvideKVStoreKey_ok config key app h]
  rfl

theorem ProvideEnvironment_error (logger : Logger) (config : Module) (key : ModuleKey)
    (app : AppBuilder) (h : storeKeyName config key.Name = "") :
    ProvideEnvironment logger config key app = .error emptyKeyNamePanic := by
  simp only [ProvideEnvironment, ProvideKVStoreKey_error config key app h]

/-- C8, refuted as stated: under the override entry for `bank` with an empty
`KvStoreKey`, `ProvideEnvironment` for module `bank` panics inside
`ProvideKVStoreKey` and returns no Environment. -/
theorem ProvideEnvironment_empty_override_panics :
    ProvideEnvironment { id := 0 } emptyOverride { name := "bank" } (freshAppBuilder 1 2 3 4) =
      .error emptyKeyNamePanic ∧
    ¬ ∃ r, ProvideEnvironment { id := 0 } emptyOverride { name := "bank" }
      (freshAppBuilder 1 2 3 4) = .ok r := by
  have h : ProvideEnvironment { id := 0 } emptyOverride { name := "bank" }
      (freshAppBuilder 1 2 3 4) = .error emptyKeyNamePanic :=
    ProvideEnvironment_error _ _ _ _ rfl
  refine ⟨h, ?_⟩
  rintro ⟨r, hr⟩
  rw [h] at hr
  cases hr

/-- C8, amended: when the persistent key name of the module (the `KvStoreKey` of the
first override entry for the module, else the module name) is non-empty,
`ProvideEnvironment` returns an Environment whose persistent-store service is scoped
to the bytes of that name, which is the name of the key `ProvideKVStoreKey` returns,
whose memory-store service is scoped to the bytes of `memory:` followed by the module
name, with the supplied logger, an event service and a gas service, and no branch or
header service; the two services returned next to it are the ones in its
store-service fields. When that name is empty the call panics. -/
theorem ProvideEnvironment_fields (logger : Logger) (config : Module) (m : String)
    (app : AppBuilder) :
    (storeKeyName config m = "" →
      ProvideEnvironment logger config { name := m } app = .error emptyKeyNamePanic) ∧
    (storeKeyName config m ≠ "" →
      ∃ env kv mem app1,
        ProvideEnvironment logger config { name := m } app = .ok ((env, kv, mem), app1) ∧
        (∃ k a, ProvideKVStoreKey config { name := m } app = .ok (k, a) ∧
          kv.actor = k.Name.toUTF8) ∧
        kv.actor =
          (match config.OverrideStoreKeys.find?
              (fun c : StoreKeyConfig => decide (c.ModuleName = m)) with
            | some o => o.KvStoreKey
            | none => m).toUTF8 ∧
        mem.actor = ("memory:" ++ m).toUTF8 ∧
        env.Logger = logger ∧
        env.EventService = some NewEventService ∧
        env.GasService = some NewGasMeterService ∧
        env.BranchService = none ∧
        env.HeaderService = none ∧
        env.KVStoreService = some kv ∧
        env.MemStoreService = some mem) := by
  constructor
  · intro h
    exact ProvideEnvironment_error logger config { name := m } app h
  · intro h
    refine ⟨_, _, _, _, ProvideEnvironment_ok logger config { name := m } app h,
      ⟨_, _, ProvideKVStoreKey_ok config { name := m } app h, rfl⟩, ?_, rfl, rfl, rfl, rfl,
      rfl, rfl, rfl, rfl⟩
    show (storeKeyName config m).toUTF8 = _
    rw [storeKeyName_eq, storeKeyOverrideLoop_eq_find]

/-- C8 amended, at a concrete input: module `bank` under the override
`bank -> custombank`. -/
theorem ProvideEnvironment_fields_witness :
    ∃ env kv mem app1,
      ProvideEnvironment { id := 5 } bankOverride { name := "bank" } (freshAppBuilder 1 2 3 4) =
        .ok ((env, kv, mem), app1) ∧
      kv.actor = "custombank".toUTF8 ∧ mem.actor = "memory:bank".toUTF8 ∧
      env.Logger = { id := 5 } ∧ env.BranchService = none ∧ env.HeaderService = none ∧
      env.KVStoreService = some kv ∧ env.MemStoreService = some mem := by
  obtain ⟨env, kv, mem, app1, hok, _, hkv, hmem, hlog, _, _, hb, hh, hks, hms⟩ :=
    (ProvideEnvironment_fields { id := 5 } bankOverride "bank" (freshAppBuilder 1 2 3 4)).2
      (by decide)
  exact ⟨env, kv, mem, app1, hok, hkv, hmem, hlog, hb, hh, hks, hms⟩

/-- C9, refuted as stated: on the builder `ProvideAppBuilder` creates, whose key list
is empty, building the environment of module `bank` returns and leaves the two keys
`bank` and `memory:bank` in the key list. -/
theorem ProvideEnvironment_registers_keys :
    (freshAppBuilder 1 2 3 4).app.storeKeys = [] ∧
    ∃ r, ProvideEnvironment { id := 0 } noOverrides { name := "bank" }
        (freshAppBuilder 1 2 3 4) = .ok r ∧
      r.2.app.storeKeys =
        [StoreKey.kv { name := "bank" }, StoreKey.memory { name := "memory:bank" }] ∧
      r.2.app.storeKeys ≠ (freshAppBuilder 1 2 3 4).app.storeKeys := by
  refine ⟨rfl, _, ProvideEnvironment_ok _ _ _ _ (by decide), ?_, ?_⟩ <;> decide

/-- C9, amended: `ProvideEnvironment` returns exactly when the persistent key name of
the module is non-empty, and whenever it returns it has appended exactly two keys to
the store-key list, the persistent key of the module and then its memory key, has
kept the entries that were there, and has left every other field of the App as it
was. -/
theorem ProvideEnvironment_effect (logger : Logger) (config : Module) (key : ModuleKey)
    (app : AppBuilder) :
    ((∃ r, ProvideEnvironment logger config key app = .ok r) ↔
      storeKeyName config key.Name ≠ "") ∧
    ∀ r, ProvideEnvironment logger config key app = .ok r →
      ∃ k a, ProvideKVStoreKey config key app = .ok (k, a) ∧
        r.2 = { app := { app.app with
          storeKeys := app.app.storeKeys ++
            [StoreKey.kv k, StoreKey.memory (ProvideMemoryStoreKey key app).1] } } := by
  constructor
  · constructor
    · rintro ⟨r, hr⟩ hemp
      rw [ProvideEnvironment_error logger config key app hemp] at hr
      cases hr
    · intro h
      exact ⟨_, ProvideEnvironment_ok logger config key app h⟩
  · intro r hr
    by_cases hemp : storeKeyName config key.Name = ""
    · rw [ProvideEnvironment_error logger config key app hemp] at hr
      cases hr
    · rw [ProvideEnvironment_ok logger config key app hemp] at hr
      injection hr with hr
      subst hr
      refine ⟨_, _, ProvideKVStoreKey_ok config key app hemp, ?_⟩
      simp [registerStoreKey, ProvideMemoryStoreKey, NewMemoryStoreKey]

/-- C9 amended, at a concrete input: module `bank` without overrides on a builder
that already holds the key `auth`. -/
theorem ProvideEnvironment_effect_witness :
    ∃ r, ProvideEnvironment { id := 0 } noOverrides { name := "bank" } authAppBuilder = .ok r ∧
      r.2.app.storeKeys =
        [StoreKey.kv { name := "auth" }, StoreKey.kv { name := "bank" },
         StoreKey.memory { name := "memory:bank" }] := by
  have hthm := ProvideEnvironment_effect { id := 0 } noOverrides { name := "bank" } authAppBuilder
  obtain ⟨r, hr⟩ := hthm.1.2 (by decide)
  obtain ⟨k, a, hk, hr2⟩ := hthm.2 r hr
  have hk2 : k = { name := "bank" } :=
    (ProvideKVStoreKey_ok_inv noOverrides { name := "bank" } authAppBuilder a k hk).2.1
  refine ⟨r, hr, ?_⟩
  rw [hr2, hk2]
  rfl

/-! ## Uniqueness of store-key names -/

theorem storeKeyNames_allocate (config : Module) (app app1 : AppBuilder) (r : KeyRequest)
    (h : allocate config app r = .ok app1) :
    storeKeyNames app1 = storeKeyNames app ++ [r.keyName config] := by
  cases r with
  | persistent m =>
    by_cases hemp : storeKeyName config (ModuleKey.Name { name := m }) = ""
    · simp [allocate, ProvideKVStoreKey_error config { name := m } app hemp] at h
    · simp only [allocate, ProvideKVStoreKey_ok config { name := m } app hemp] at h
      injection h with h
      subst h
      simp [storeKeyNames, registerStoreKey, KeyRequest.keyName, StoreKey.Name,
        KVStoreKey.Name, ModuleKey.Name]
  | memory m =>
    simp only [allocate] at h
    injection h with h
    subst h
    simp [storeKeyNames, ProvideMemoryStoreKey, registerStoreKey, KeyRequest.keyName,
      StoreKey.Name, MemoryStoreKey.Name, NewMemoryStoreKey, ModuleKey.Name]

theorem storeKeyNames_allocateAll (config : Module) (reqs : List KeyRequest)
    (app app1 : AppBuilder) (h : allocateAll config app reqs = .ok app1) :
    storeKeyNames app1 = storeKeyNames app ++ reqs.map (KeyRequest.keyName config) := by
  induction reqs generalizing app with
  | nil =>
    simp only [allocateAll] at h
    injection h with h
    subst h
    simp
  | cons r rest ih =>
    simp only [allocateAll] at h
    cases hr : allocate config app r with
    | error e => rw [hr] at h; cases h
    | ok app2 =>
      rw [hr] at h
      rw [ih app2 h, storeKeyNames_allocate config app app2 r hr]
      simp

theorem allocateAll_returns (config : Module) (reqs : List KeyRequest) (app : AppBuilder)
    (h : ∀ m, KeyRequest.persistent m ∈ reqs → storeKeyName config m ≠ "") :
    ∃ app1, allocateAll config app reqs = .ok app1 := by
  induction reqs generalizing app with
  | nil => exact ⟨app, rfl⟩
  | cons r rest ih =>
    have hrest : ∀ m, KeyRequest.persistent m ∈ rest → storeKeyName config m ≠ "" :=
      fun m hm => h m (List.mem_cons_of_mem _ hm)
    cases r with
    | persistent m =>
      have hm : storeKeyName config (ModuleKey.Name { name := m }) ≠ "" :=
        h m (List.mem_cons_self _ _)
      simp only [allocateAll, allocate, ProvideKVStoreKey_ok config { name := m } app hm]
      exact ih _ hrest
    | memory m =>
      simp only [allocateAll, allocate]
      exact ih _ hrest

/-- C5, refuted as stated: without overrides every module resolves to its own name,
so different modules resolve to different persistent names; still, allocating the
persistent key of module `memory:bank` and the memory key of module `bank` on a
fresh builder builds an App whose key list holds the name `memory:bank` twice. -/
theorem store_key_names_clash :
    (freshAppBuilder 1 2 3 4).app.storeKeys = [] ∧
    clashingRequests.Nodup ∧
    (∀ m n : String, m ≠ n → storeKeyName noOverrides m ≠ storeKeyName noOverrides n) ∧
    ∃ app1, allocateAll noOverrides (freshAppBuilder 1 2 3 4) clashingRequests = .ok app1 ∧
      storeKeyNames app1 = ["memory:bank", "memory:bank"] ∧
      ¬ (storeKeyNames app1).Nodup := by
  refine ⟨rfl, by decide, ?_, _, rfl, by decide, by decide⟩
  intro m n hmn
  exact hmn

/-- C5, amended: on a builder with an empty key list, for a duplicate-free sequence
of requests (at most one per module and kind), under a config in which different
requested modules resolve to different persistent names and in which no requested
persistent name equals `memory:` followed by the name of a module whose memory key
is requested, every App the allocation builds has pairwise distinct names in its
store-key list; and the allocation does build one when every requested persistent
name is non-empty. -/
theorem store_key_names_nodup (config : Module) (app : AppBuilder) (reqs : List KeyRequest)
    (hfresh : app.app.storeKeys = [])
    (honce : reqs.Nodup)
    (hinj : ∀ m n, KeyRequest.persistent m ∈ reqs → KeyRequest.persistent n ∈ reqs → m ≠ n →
      storeKeyName config m ≠ storeKeyName config n)
    (hsep : ∀ m n, KeyRequest.persistent m ∈ reqs → KeyRequest.memory n ∈ reqs →
      storeKeyName config m ≠ "memory:" ++ n) :
    (∀ app1, allocateAll config app reqs = .ok app1 → (storeKeyNames app1).Nodup) ∧
    ((∀ m, KeyRequest.persistent m ∈ reqs → storeKeyName config m ≠ "") →
      ∃ app1, allocateAll config app reqs = .ok app1 ∧ (storeKeyNames app1).Nodup) := by
  have key : ∀ app1, allocateAll config app reqs = .ok app1 → (storeKeyNames app1).Nodup := by
    intro app1 hret
    rw [storeKeyNames_allocateAll config reqs app app1 hret]
    have h0 : storeKeyNames app = [] := by simp [storeKeyNames, hfresh]
    rw [h0, List.nil_append]
    refine List.Nodup.map_on ?_ honce
    intro x hx y hy hxy
    cases x with
    | persistent m =>
      cases y with
      | persistent n =>
        by_cases hmn : m = n
        · rw [hmn]
        · exact absurd hxy (hinj m n hx hy hmn)
      | memory n => exact absurd hxy (hsep m n hx hy)
    | memory m =>
      cases y with
      | persistent n => exact absurd hxy.symm (hsep n m hy hx)
      | memory n => rw [memory_name_cancel m n hxy]
  refine ⟨key, ?_⟩
  intro hne
  obtain ⟨app1, h1⟩ := allocateAll_returns config reqs app hne
  exact ⟨app1, h1, key app1 h1⟩

/-- C5 amended, at a concrete input: the modules `auth` and `bank`, one key of each
kind, without overrides. -/
theorem store_key_names_nodup_witness :
    ∃ app1, allocateAll noOverrides (freshAppBuilder 1 2 3 4) authBankRequests = .ok app1 ∧
      (storeKeyNames app1).Nodup ∧
      storeKeyNames app1 = ["auth", "memory:auth", "bank", "memory:bank"] := by
  have hthm := store_key_names_nodup noOverrides (freshAppBuilder 1 2 3 4) authBankRequests rfl
      (by decide)
      (fun m n _ _ hmn => hmn)
      (by
        intro m n hm hn
        simp [authBankRequests] at hm hn
        rcases hm with rfl | rfl <;> rcases hn with rfl | rfl <;> decide)
  have h1 : allocateAll noOverrides (freshAppBuilder 1 2 3 4) authBankRequests =
      .ok (registerStoreKey (registerStoreKey (registerStoreKey (registerStoreKey
        (freshAppBuilder 1 2 3 4) (StoreKey.kv { name := "auth" }))
        (StoreKey.memory { name := "memory:auth" })) (StoreKey.kv { name := "bank" }))
        (StoreKey.memory { name := "memory:bank" })) := rfl
  exact ⟨_, h1, hthm.1 _ h1, by decide⟩

end Runtime
